import Mathlib

/-!
Verification of the mblog video-saver bot's download-orchestration core.

The Python sources (`downloader.py`, `bot.py`, `utils.py`) are embedded
shallowly: Python strings are `List Char` (or Lean `String` where no
character-level reasoning is needed), Python truthiness of optional
integers and strings is made explicit, the yt-dlp library is an abstract
environment (`FetchEnv`) supplying the results of its two `extract_info`
calls and the progress events it feeds to the hook, and exceptions are
`Except` values.  Each claim about the spec is settled by one theorem at
the end of the file.
-/

namespace Mblog

/-! ### Python value helpers: truthiness and `or` on optional numbers/strings -/

/-- Python truthiness of an optional integer field: present and nonzero. -/
def pyTruthy : Option Nat → Bool
  | none => false
  | some n => n != 0

/-- Python `a or b` on optional integers: `a` if truthy, else `b`. -/
def pyOrNat (a b : Option Nat) : Option Nat :=
  if pyTruthy a then a else b

/-- Python truthiness of an optional string: present and nonempty. -/
def pyTruthyStr : Option String → Bool
  | none => false
  | some s => s != ""

/-- Python `a or b` on optional strings. -/
def pyOrStr (a b : Option String) : Option String :=
  if pyTruthyStr a then a else b

/-! ### Python string primitives over `List Char` -/

/-- Lower-case every character (model of matching with `re.IGNORECASE`). -/
def lowerL (l : List Char) : List Char := l.map Char.toLower

/-- Python `str.lstrip()` (whitespace). -/
def lstripL (l : List Char) : List Char := l.dropWhile Char.isWhitespace

/-- Python `str.rstrip()` (whitespace). -/
def rstripL (l : List Char) : List Char := (l.reverse.dropWhile Char.isWhitespace).reverse

/-- Python `str.strip()` (whitespace). -/
def pyStrip (l : List Char) : List Char := rstripL (lstripL l)

/-- Python `s.split(sep, 1)[0]`: everything before the first `sep`. -/
def cutAt (sep : Char) (l : List Char) : List Char := l.takeWhile (fun c => c != sep)

/-- Python `sub in s` substring test. -/
def containsSub (sub : List Char) : List Char → Bool
  | [] => sub.isEmpty
  | c :: rest => sub.isPrefixOf (c :: rest) || containsSub sub rest

/-! ### downloader.py: SUPPORTED_DOMAINS

The regex `https?://(?:(?:www|m)\.)?(youtube\.com|youtu\.be|instagram\.com|instagr\.am)/`
with `re.IGNORECASE` and `re.match` (anchored at the start) accepts exactly
the strings whose lower-casing starts with one of the 24 concatenations
scheme ++ optional-subdomain ++ domain ++ "/". -/

def urlSchemes : List (List Char) := ["http://".data, "https://".data]

def urlSubdomains : List (List Char) := [[], "www.".data, "m.".data]

def urlDomains : List (List Char) :=
  ["youtube.com".data, "youtu.be".data, "instagram.com".data, "instagr.am".data]

/-- The finite language of accepted URL starts (lower-case form). -/
def urlStarts : List (List Char) :=
  urlSchemes.flatMap fun s =>
    urlSubdomains.flatMap fun w =>
      urlDomains.map fun d => s ++ w ++ d ++ ['/']

/-- Model of `SUPPORTED_DOMAINS.match(url)` (as a Boolean: did it match?). -/
def supportedDomainsMatch (url : List Char) : Bool :=
  urlStarts.any fun p => p.isPrefixOf (lowerL url)

/-! ### bot.py: sanitize_url -/

/-- The `"youtube" in clean or "youtu.be" in clean` test of `sanitize_url`. -/
def ytCond (v : List Char) : Bool :=
  containsSub "youtube".data v || containsSub "youtu.be".data v

/-- The `"instagram" in clean or "instagr.am" in clean` test of `sanitize_url`. -/
def igCond (v : List Char) : Bool :=
  containsSub "instagram".data v || containsSub "instagr.am".data v

/-- bot.py `sanitize_url`: strip whitespace; for YouTube-looking strings cut at
the first ampersand; for Instagram-looking strings cut at the first question mark. -/
def sanitize_url (url : List Char) : List Char :=
  let clean := pyStrip url
  let clean := if ytCond clean then cutAt '&' clean else clean
  let clean := if igCond clean then cutAt '?' clean else clean
  clean

/-! ### downloader.py: QUALITY_MAP and _build_opts -/

def QUALITY_MAP : List (String × String) :=
  [("360p",  "best[ext=mp4][height<=360][acodec!=none][vcodec!=none]/bestvideo[height<=360]+bestaudio/best"),
   ("480p",  "best[ext=mp4][height<=480][acodec!=none][vcodec!=none]/bestvideo[height<=480]+bestaudio/best"),
   ("720p",  "best[ext=mp4][height<=720][acodec!=none][vcodec!=none]/bestvideo[height<=720]+bestaudio/best"),
   ("1080p", "bestvideo[height<=1080]+bestaudio/best"),
   ("best",  "bestvideo+bestaudio/best"),
   ("mp3",   "bestaudio/best")]

/-- `QUALITY_MAP["best"]`, the fallback selector used by `_build_opts`. -/
def bestSelector : String := "bestvideo+bestaudio/best"

/-- Python `QUALITY_MAP.get(quality_key, QUALITY_MAP["best"])`. -/
def qualityMapGet (qualityKey : String) : String :=
  match QUALITY_MAP.lookup qualityKey with
  | some v => v
  | none => bestSelector

structure Postprocessor where
  key : String
  preferredcodec : String
  preferredquality : String
deriving DecidableEq

/-- The declarative yt-dlp options dictionary built by `_build_opts`
(the fields this core sets; the progress hook is modelled separately). -/
structure YdlOpts where
  format : String
  outtmpl : String
  noplaylist : Bool
  quiet : Bool
  ignoreerrors : Bool
  postprocessors : List Postprocessor
  merge_output_format : Option String
  http_headers_user_agent : Option String
  cookiefile : Option String
  concurrent_fragment_downloads : Nat
  fragment_retries : Nat
  retries : Nat
  socket_timeout : Nat
deriving DecidableEq

/-- downloader.py `_build_opts` (pure part: the options dictionary). -/
def _build_opts (qualityKey : String) (tmpDir : String)
    (userAgent : Option String) (cookiesPath : Option String) : YdlOpts :=
  let formatSelector := qualityMapGet qualityKey
  let isAudio := qualityKey == "mp3"
  { format := formatSelector
    outtmpl := tmpDir ++ "/video.%(ext)s"
    noplaylist := true
    quiet := true
    ignoreerrors := false
    postprocessors :=
      if isAudio then [⟨"FFmpegExtractAudio", "mp3", "192"⟩] else []
    merge_output_format := if isAudio then none else some "mp4"
    http_headers_user_agent := userAgent
    cookiefile := cookiesPath
    concurrent_fragment_downloads := 4
    fragment_retries := 10
    retries := 10
    socket_timeout := 30 }

/-! ### downloader.py: progress hook and size estimation -/

/-- One yt-dlp progress dictionary (the fields this core reads). -/
structure ProgressData where
  status : String
  total_bytes : Option Nat
  total_bytes_estimate : Option Nat
  downloaded_bytes : Option Nat
deriving DecidableEq

/-- The in-hook abort check of `_hook`: after forwarding the event to the
progress callback, the hook raises `FileTooLargeError` exactly when the
reported total (`total_bytes or total_bytes_estimate`) is truthy and
exceeds the ceiling. -/
def hookAborts (maxFileBytes : Nat) (d : ProgressData) : Bool :=
  let total := pyOrNat d.total_bytes d.total_bytes_estimate
  pyTruthy total && (total.getD 0 > maxFileBytes)

/-- One entry of the `formats` list in a yt-dlp info dictionary. -/
structure FormatEntry where
  filesize : Option Nat
  filesize_approx : Option Nat
deriving DecidableEq

/-- One entry of `requested_downloads` in a yt-dlp info dictionary. -/
structure RequestedDownload where
  filepath : String
  filesize : Option Nat
  title : Option String
  ext : Option String
deriving DecidableEq

/-- A yt-dlp info dictionary (the fields this core reads). -/
structure YdlInfo where
  title : Option String
  filesize : Option Nat
  filesize_approx : Option Nat
  formats : List FormatEntry
  requested_downloads : Option (List RequestedDownload)
deriving DecidableEq

/-- downloader.py `_estimate_size`. -/
def _estimate_size (info : YdlInfo) : Option Nat :=
  if pyTruthy info.filesize then info.filesize
  else if pyTruthy info.filesize_approx then info.filesize_approx
  else
    let sizes := info.formats.filterMap fun f =>
      if pyTruthy (pyOrNat f.filesize f.filesize_approx) then
        pyOrNat f.filesize f.filesize_approx
      else none
    match sizes with
    | [] => none
    | s :: rest => some (rest.foldl max s)

/-- The estimation-phase abort condition of `download_video`
(`if est_size and est_size > max_file_bytes`). -/
def estimateAborts (maxFileBytes : Nat) (info : YdlInfo) : Bool :=
  pyTruthy (_estimate_size info) && ((_estimate_size info).getD 0 > maxFileBytes)

/-! ### downloader.py: download_video -/

structure DownloadResult where
  file_path : String
  title : String
  ext : String
  size : Nat
deriving DecidableEq

inductive DlError where
  | unsupportedURL : DlError
  | fileTooLarge : DlError
  | downloadFailed (msg : String) : DlError
deriving DecidableEq

/-- The behaviour of the external yt-dlp library for one invocation:
the result of the metadata-only call, the progress events fed to the hook
during the transfer, the result of the transfer call, the on-disk file
sizes consulted by `stat`, and the fallback `prepare_filename` answer. -/
structure FetchEnv where
  metaResult : Except String YdlInfo
  progressEvents : List ProgressData
  transferResult : Except String YdlInfo
  diskSize : String → Nat
  preparedFilename : String

/-- Which observable side effects an invocation of `download_video` performed. -/
structure DlTrace where
  dirCreated : Bool
  optsBuilt : Bool
  ydlConstructed : Bool
  metaCalled : Bool
  transferCalled : Bool
  fileCreated : Bool
deriving DecidableEq

/-- Python `Path.stem`-ish helpers for the fallback title/extension. -/
def basenameOf (p : List Char) : List Char := (p.reverse.takeWhile (fun c => c != '/')).reverse

def stemOf (p : String) : String :=
  let b := basenameOf p.data
  if (b.drop 1).contains '.' then ⟨(((b.reverse).dropWhile (fun c => c != '.')).drop 1).reverse⟩
  else ⟨b⟩

def extOf (p : String) : String :=
  let b := basenameOf p.data
  if (b.drop 1).contains '.' then ⟨((b.reverse).takeWhile (fun c => c != '.')).reverse⟩
  else ""

/-- Lines 187–197 of downloader.py: derive (path, title, ext, size) from the
transfer-phase info dictionary; `none` models the `IndexError` raised on an
empty `requested_downloads` list (wrapped into `DownloadFailedError` later). -/
def extractResultFields (env : FetchEnv) (info : YdlInfo) :
    Option (String × String × String × Nat) :=
  match info.requested_downloads with
  | some [] => none
  | some (d :: _) =>
      let filePath := d.filepath
      let size := match pyOrNat d.filesize none with
        | some n => n
        | none => env.diskSize filePath
      let title := (pyOrStr d.title (pyOrStr info.title (some (stemOf filePath)))).getD ""
      let ext := (pyOrStr d.ext (some (extOf filePath))).getD ""
      some (filePath, title, ext, size)
  | none =>
      let filePath := env.preparedFilename
      let size := env.diskSize filePath
      let title := (pyOrStr info.title (some (stemOf filePath))).getD ""
      let ext := extOf filePath
      some (filePath, title, ext, size)

/-- downloader.py `download_video`, returning the result-or-error together
with the trace of side effects performed. -/
def download_video (url : List Char) (qualityKey : String) (tmpDir : String)
    (maxFileBytes : Nat) (userAgent : Option String) (cookiesPath : Option String)
    (env : FetchEnv) :
    Except DlError DownloadResult × DlTrace :=
  if supportedDomainsMatch url = false then
    (Except.error DlError.unsupportedURL,
     ⟨false, false, false, false, false, false⟩)
  else
    -- tmp_path.mkdir(...); ydl_opts = _build_opts(...); with YoutubeDL(ydl_opts)
    let _ydlOpts := _build_opts qualityKey tmpDir userAgent cookiesPath
    match env.metaResult with
    | Except.error msg =>
        (Except.error (DlError.downloadFailed msg),
         ⟨true, true, true, true, false, false⟩)
    | Except.ok info =>
        if estimateAborts maxFileBytes info then
          (Except.error DlError.fileTooLarge,
           ⟨true, true, true, true, false, false⟩)
        else if env.progressEvents.any (hookAborts maxFileBytes) then
          -- the hook raised FileTooLargeError mid-transfer
          (Except.error DlError.fileTooLarge,
           ⟨true, true, true, true, true, false⟩)
        else
          match env.transferResult with
          | Except.error msg =>
              (Except.error (DlError.downloadFailed msg),
               ⟨true, true, true, true, true, false⟩)
          | Except.ok info2 =>
              match extractResultFields env info2 with
              | none =>
                  (Except.error (DlError.downloadFailed "list index out of range"),
                   ⟨true, true, true, true, true, true⟩)
              | some (filePath, title, ext, size) =>
                  if size > maxFileBytes then
                    (Except.error DlError.fileTooLarge,
                     ⟨true, true, true, true, true, true⟩)
                  else
                    (Except.ok ⟨filePath, title, ext, size⟩,
                     ⟨true, true, true, true, true, true⟩)

/-! ### The allow-list reading of the classifier

`hostOnAllowList` spells out the claim's description of the allow-list:
the URL's host (authority without userinfo and port, lower-cased) is one of
youtube.com, youtu.be, instagram.com, instagr.am, optionally preceded by
`www.` or `m.`. -/

def allowedHosts : List (List Char) :=
  urlSubdomains.flatMap fun w => urlDomains.map fun d => w ++ d

/-- Extract the host of an http(s) URL: the part after the scheme up to the
first `/`, `?` or `#`, with any userinfo (`...@`) and port (`:...`) removed. -/
def hostOf (url : List Char) : Option (List Char) :=
  let l := lowerL url
  let rest? : Option (List Char) :=
    if "https://".data.isPrefixOf l then some (l.drop 8)
    else if "http://".data.isPrefixOf l then some (l.drop 7)
    else none
  match rest? with
  | none => none
  | some rest =>
      let authority := rest.takeWhile fun c => c != '/' && c != '?' && c != '#'
      let afterUserinfo := (authority.reverse.takeWhile fun c => c != '@').reverse
      let host := afterUserinfo.takeWhile fun c => c != ':'
      some host

def hostOnAllowList (url : List Char) : Bool :=
  match hostOf url with
  | none => false
  | some h => allowedHosts.contains h

/-! ### bot.py: temp-directory naming -/

/-- Decimal rendering of a natural number, structurally recursive on fuel. -/
def natToDecAux : Nat → Nat → List Char
  | 0, _ => []
  | fuel + 1, n =>
      if n < 10 then [Nat.digitChar n]
      else natToDecAux fuel (n / 10) ++ [Nat.digitChar (n % 10)]

/-- Decimal rendering of a natural number (Python `f-string` of an int). -/
def natToDec (n : Nat) : List Char := natToDecAux (n + 1) n

/-- The value a decimal digit string denotes (left inverse of `natToDec`). -/
def decVal (l : List Char) : Nat :=
  l.foldl (fun acc c => 10 * acc + (c.toNat - 48)) 0

/-- bot.py line 229: `f"dl_{callback.from_user.id}_{int(time.time())}"`. -/
def tmp_dir_name (userId unixTime : Nat) : List Char :=
  "dl_".data ++ natToDec userId ++ '_' :: natToDec unixTime

/-- A quality-selection callback as the handler sees it. -/
structure DlRequest where
  userId : Nat
  unixTime : Nat
  urlKey : String
  quality : String
deriving DecidableEq

def request_tmp_dir (r : DlRequest) : List Char := tmp_dir_name r.userId r.unixTime

/-! ### utils.py safe_remove and the cleanup paths of handle_download_callback -/

/-- An abstract filesystem: the set of existing paths, plus whether the OS
refuses removals (the `OSError` case that `safe_remove` swallows). -/
structure FS where
  paths : List String
  removeFails : Bool

def pathExists (fs : FS) (p : String) : Bool := fs.paths.contains p

/-- `shutil.rmtree` / `Path.unlink`: may raise `OSError`. -/
def osRemove (fs : FS) (p : String) : Except String FS :=
  if fs.removeFails then Except.error "OSError"
  else Except.ok { fs with paths := fs.paths.filter fun q => q != p }

/-- utils.py `safe_remove`: return silently when the path is absent, catch
`OSError` otherwise.  Its return type is `FS`, not `Except _ FS`: it cannot
raise. -/
def safe_remove (fs : FS) (p : String) : FS :=
  if pathExists fs p = false then fs
  else
    match osRemove fs p with
    | Except.ok fs2 => fs2
    | Except.error _ => fs

/-- The outcome of the awaited `download_video` call as seen by
`handle_download_callback`. -/
inductive FetchOutcome where
  | success (r : DownloadResult)
  | unsupported
  | tooLarge
  | failed (msg : String)
  | unexpected
deriving DecidableEq

/-- The filesystem effect, and whether an exception escapes, of
`handle_download_callback` from the moment the fetch outcome is known
(bot.py lines 243-281).  `editFails` says whether awaiting
`progress_msg.edit_text` raises on this path (the message may have been
deleted, the chat blocked, ...), `sendFails` whether sending the file or
deleting the progress message raises; edits and sends do not touch the
filesystem.  Each typed-failure and unexpected handler awaits the edit
BEFORE `safe_remove(tmp_dir)` with no `try/finally`, so a failing edit
skips cleanup and the exception escapes.  The success branch runs inside
`try ... finally: safe_remove(tmp_dir)`: an oversized result edits (a
failure there falls to the `except` whose own edit also fails) and runs
`safe_remove` before returning, and the `finally` runs it (again); a send
failure is caught and edited; in every success sub-path the `finally`
performs the removal. -/
def handle_download_cleanup (fs : FS) (tmpDir : String) (maxFileBytes : Nat)
    (outcome : FetchOutcome) (editFails sendFails : Bool) : FS × Bool :=
  match outcome with
  | FetchOutcome.success r =>
      if r.size > maxFileBytes then
        if editFails then (safe_remove fs tmpDir, true)
        else (safe_remove (safe_remove fs tmpDir) tmpDir, false)
      else
        (safe_remove fs tmpDir, sendFails && editFails)
  | _ =>
      if editFails then (fs, true)
      else (safe_remove fs tmpDir, false)

/-! ### bot.py: progress throttle

Times are rationals (the throttle interval is 1.5 time units).  The
`last_update` timestamp starts at 0.0 and is overwritten before the edit is
attempted, so a failed edit still consumes the interval. -/

structure ThrottleState where
  lastTs : ℚ

/-- `progress_msg.edit_text`: may fail (e.g. message deleted). -/
def editAttempt (ok : Bool) : Except Unit Unit :=
  if ok then Except.ok () else Except.error ()

/-- bot.py `throttled_edit`: drop the event inside the interval, otherwise
record the new timestamp and attempt the edit, swallowing its failure.
The Boolean says whether a rendered update was emitted (attempted). -/
def throttled_edit (editOk : Bool) (st : ThrottleState) (now : ℚ) :
    ThrottleState × Bool :=
  if now - st.lastTs < 3 / 2 then (st, false)
  else
    let st2 : ThrottleState := ⟨now⟩
    match editAttempt editOk with
    | Except.ok _ => (st2, true)
    | Except.error _ => (st2, true)

/-- bot.py `progress_cb` for one event: ignore non-downloading statuses and
events without a usable (truthy) total, otherwise hand off to
`throttled_edit`. -/
def progress_cb_step (editOk : Bool) (st : ThrottleState) (now : ℚ)
    (d : ProgressData) : ThrottleState × Bool :=
  if d.status != "downloading" then (st, false)
  else if pyTruthy (pyOrNat d.total_bytes d.total_bytes_estimate) = false then (st, false)
  else throttled_edit editOk st now

/-- Run the throttle over a timed event stream; result: the times at which a
rendered update was emitted. -/
def runProgress (editOk : ℚ → Bool) : ThrottleState → List (ℚ × ProgressData) → List ℚ
  | _, [] => []
  | st, (t, d) :: rest =>
      match progress_cb_step (editOk t) st t d with
      | (st2, true) => t :: runProgress editOk st2 rest
      | (st2, false) => runProgress editOk st2 rest

def progressTrace (editOk : ℚ → Bool) (events : List (ℚ × ProgressData)) : List ℚ :=
  runProgress editOk ⟨0⟩ events

/-! ### bot.py: the event order of one request

`prompt_for_quality` classifies, then checks membership (showing the channel
prompt on failure), then shows the quality keyboard;
`handle_download_callback` confirms the selection, re-checks membership
(showing the channel prompt on failure), creates the progress message and
dispatches the fetch. -/

inductive Ev where
  | classifyReject
  | gatePromptCheck
  | gatePromptDisplay
  | qualityUI
  | selectionConfirm
  | gateCallbackCheck
  | gateCallbackDisplay
  | progressMsgCreate
  | dispatchFetch
  | outcomeReport
deriving DecidableEq

def prompt_trace (classified member1 : Bool) : List Ev :=
  if classified = false then [Ev.classifyReject]
  else if member1 = false then [Ev.gatePromptCheck, Ev.gatePromptDisplay]
  else [Ev.gatePromptCheck, Ev.qualityUI]

def callback_trace (member2 : Bool) : List Ev :=
  if member2 = false then
    [Ev.selectionConfirm, Ev.gateCallbackCheck, Ev.gateCallbackDisplay]
  else
    [Ev.selectionConfirm, Ev.gateCallbackCheck, Ev.progressMsgCreate,
     Ev.dispatchFetch, Ev.outcomeReport]

/-- The event trace of one request: the prompt phase, then (only if the
quality keyboard was shown and the user selected) the callback phase. -/
def request_trace (classified member1 selected member2 : Bool) : List Ev :=
  prompt_trace classified member1 ++
    (if classified && member1 && selected then callback_trace member2 else [])

def firstIdx : List Ev → Ev → Nat
  | [], _ => 0
  | x :: rest, a => if x = a then 0 else firstIdx rest a + 1

/-- Event `a` precedes every occurrence of event `b` in the trace. -/
def precedes (tr : List Ev) (a b : Ev) : Prop :=
  b ∈ tr → a ∈ tr ∧ firstIdx tr a < firstIdx tr b

instance (tr : List Ev) (a b : Ev) : Decidable (precedes tr a b) := by
  unfold precedes; infer_instance

/-! ## Helper lemmas -/

theorem prefixOf_eq {l₁ l₂ : List Char} : l₁.isPrefixOf l₂ = true ↔ l₁ <+: l₂ :=
  List.isPrefixOf_iff_prefix

/-- `safe_remove` removes the path when the OS cooperates, and never touches
the `removeFails` flag. -/
theorem safe_remove_removes (fs : FS) (p : String) (h : fs.removeFails = false) :
    pathExists (safe_remove fs p) p = false ∧ (safe_remove fs p).removeFails = false := by
  unfold safe_remove osRemove
  by_cases hex : pathExists fs p = false
  · simp [hex, h]
  · have hmem : p ∈ fs.paths := by
      have ht : pathExists fs p = true := by
        cases hpe : pathExists fs p
        · exact absurd hpe hex
        · rfl
      simpa [pathExists, List.contains, List.elem_eq_mem] using ht
    simp [hex, h, hmem, pathExists, List.contains, List.elem_eq_mem, List.mem_filter]

/-- Digit characters: value round-trip and not an underscore. -/
theorem digitChar_facts (d : Nat) (h : d < 10) :
    (Nat.digitChar d).toNat - 48 = d ∧ Nat.digitChar d ≠ '_' := by
  interval_cases d <;> exact ⟨by decide, by decide⟩

/-- `natToDecAux` with enough fuel: `decVal` inverts it, it is nonempty, and
it contains no underscore. -/
theorem natToDecAux_spec :
    ∀ (fuel n : Nat), n < fuel →
      decVal (natToDecAux fuel n) = n ∧ natToDecAux fuel n ≠ [] ∧
      ∀ c ∈ natToDecAux fuel n, c ≠ '_' := by
  intro fuel
  induction fuel with
  | zero => intro n h; omega
  | succ f ih =>
      intro n h
      by_cases h10 : n < 10
      · simp only [natToDecAux, h10, if_true]
        refine ⟨?_, by simp, ?_⟩
        · simp [decVal, (digitChar_facts n h10).1]
        · intro c hc
          simp only [List.mem_singleton] at hc
          exact hc ▸ (digitChar_facts n h10).2
      · have hdiv : n / 10 < f := by
          have h1 : n / 10 < n := Nat.div_lt_self (by omega) (by omega)
          omega
        obtain ⟨ihv, ihne, ihus⟩ := ih (n / 10) hdiv
        simp only [natToDecAux, h10, if_false, reduceIte]
        refine ⟨?_, by simp, ?_⟩
        · have hmod : n % 10 < 10 := Nat.mod_lt _ (by omega)
          unfold decVal at ihv ⊢
          rw [List.foldl_append]
          simp only [List.foldl_cons, List.foldl_nil, ihv, (digitChar_facts _ hmod).1]
          omega
        · intro c hc
          rcases List.mem_append.1 hc with hc | hc
          · exact ihus c hc
          · simp only [List.mem_singleton] at hc
            have hmod : n % 10 < 10 := Nat.mod_lt _ (by omega)
            exact hc ▸ (digitChar_facts _ hmod).2

theorem natToDec_decVal (n : Nat) : decVal (natToDec n) = n :=
  (natToDecAux_spec (n + 1) n (Nat.lt_succ_self n)).1

theorem natToDec_no_underscore (n : Nat) : ∀ c ∈ natToDec n, c ≠ '_' :=
  (natToDecAux_spec (n + 1) n (Nat.lt_succ_self n)).2.2

theorem natToDec_injective {a b : Nat} (h : natToDec a = natToDec b) : a = b := by
  have ha := natToDec_decVal a
  have hb := natToDec_decVal b
  rw [h] at ha
  omega

/-- Unique decomposition of a list around an underscore separator when the
two left parts contain no underscore. -/
theorem split_at_underscore :
    ∀ (a c b d : List Char), (∀ x ∈ a, x ≠ '_') → (∀ x ∈ c, x ≠ '_') →
      a ++ '_' :: b = c ++ '_' :: d → a = c ∧ b = d := by
  intro a
  induction a with
  | nil =>
      intro c b d _ hc h
      cases c with
      | nil => simpa using h
      | cons x c' =>
          simp only [List.nil_append, List.cons_append, List.cons.injEq] at h
          exact absurd h.1.symm (hc x (List.mem_cons_self x c'))
  | cons y a' ih =>
      intro c b d ha hc h
      cases c with
      | nil =>
          simp only [List.cons_append, List.nil_append, List.cons.injEq] at h
          exact absurd h.1 (ha y (List.mem_cons_self y a'))
      | cons x c' =>
          simp only [List.cons_append, List.cons.injEq] at h
          obtain ⟨hyx, htail⟩ := h
          have ha' : ∀ z ∈ a', z ≠ '_' := fun z hz => ha z (List.mem_cons_of_mem _ hz)
          have hc' : ∀ z ∈ c', z ≠ '_' := fun z hz => hc z (List.mem_cons_of_mem _ hz)
          obtain ⟨h1, h2⟩ := ih c' b d ha' hc' htail
          exact ⟨by rw [hyx, h1], h2⟩

theorem tmp_dir_name_injective {u₁ t₁ u₂ t₂ : Nat}
    (h : tmp_dir_name u₁ t₁ = tmp_dir_name u₂ t₂) : u₁ = u₂ ∧ t₁ = t₂ := by
  unfold tmp_dir_name at h
  have h' : natToDec u₁ ++ '_' :: natToDec t₁ = natToDec u₂ ++ '_' :: natToDec t₂ := by
    have hd : "dl_".data = ['d', 'l', '_'] := rfl
    rw [hd] at h
    simpa using h
  obtain ⟨h1, h2⟩ :=
    split_at_underscore _ _ _ _ (natToDec_no_underscore u₁) (natToDec_no_underscore u₂) h'
  exact ⟨natToDec_injective h1, natToDec_injective h2⟩

/-- `containsSub` is the infix relation. -/
theorem containsSub_iff {sub : List Char} :
    ∀ {l : List Char}, containsSub sub l = true ↔ sub <:+: l := by
  intro l
  induction l with
  | nil =>
      simp only [containsSub, List.isEmpty_iff, List.infix_nil]
  | cons c rest ih =>
      simp only [containsSub, Bool.or_eq_true, prefixOf_eq, ih, List.infix_cons_iff]

/-- A prefix of a mapped list comes from a prefix of the original list. -/
theorem map_pre_split {f : Char → Char} {q u : List Char} (h : q <+: u.map f) :
    ∃ p t, u = p ++ t ∧ p.map f = q := by
  obtain ⟨t', ht'⟩ := h
  refine ⟨u.take q.length, u.drop q.length, (List.take_append_drop _ u).symm, ?_⟩
  rw [List.map_take, ← ht']
  exact List.take_left q t'

/-- Every accepted URL start is nonempty and free of ampersands, question
marks and whitespace. -/
theorem urlStarts_chars :
    ∀ q ∈ urlStarts, q ≠ [] ∧ ∀ x ∈ q, x ≠ '&' ∧ x ≠ '?' ∧ x.isWhitespace = false := by
  decide

/-- `Char.toLower` fixes whitespace characters. -/
theorem toLower_of_ws {c : Char} (h : c.isWhitespace = true) : c.toLower = c := by
  simp only [Char.isWhitespace, Bool.or_eq_true, decide_eq_true_eq] at h
  rcases h with ((h | h) | h) | h <;> subst h <;> decide

/-- `dropWhile` is the identity when the predicate fails on every element. -/
theorem dropWhile_all_false {pr : Char → Bool} {l : List Char}
    (h : ∀ c ∈ l, pr c = false) : l.dropWhile pr = l := by
  cases l with
  | nil => rfl
  | cons a rest =>
      rw [List.dropWhile_cons, h a (List.mem_cons_self a rest)]
      simp

/-- `rstripL` acts only on the tail when the front part is whitespace-free. -/
theorem rstrip_append {p t : List Char} (hp : ∀ c ∈ p, c.isWhitespace = false) :
    rstripL (p ++ t) = p ++ rstripL t := by
  unfold rstripL
  rw [List.reverse_append, List.dropWhile_append]
  by_cases he : (t.reverse.dropWhile Char.isWhitespace).isEmpty = true
  · rw [if_pos he]
    rw [List.isEmpty_iff] at he
    rw [he, List.reverse_nil, List.append_nil,
      dropWhile_all_false (fun c hc => hp c (List.mem_reverse.1 hc)), List.reverse_reverse]
  · rw [if_neg he, List.reverse_append, List.reverse_reverse]

/-- `pyStrip` is the identity on whitespace-free strings. -/
theorem pyStrip_of_no_ws {l : List Char} (h : ∀ c ∈ l, c.isWhitespace = false) :
    pyStrip l = l := by
  unfold pyStrip lstripL
  rw [dropWhile_all_false h]
  have := rstrip_append (t := []) h
  simpa [rstripL] using this

/-- The characters of `cutAt sep l` never equal `sep`. -/
theorem cutAt_no_sep {sep : Char} {l : List Char} :
    ∀ c ∈ cutAt sep l, c ≠ sep := by
  intro c hc
  have := List.mem_takeWhile_imp hc
  simpa using this

/-- `cutAt` is the identity when the separator does not occur. -/
theorem cutAt_of_no_sep {sep : Char} {l : List Char} (h : ∀ c ∈ l, c ≠ sep) :
    cutAt sep l = l := by
  unfold cutAt
  exact List.takeWhile_eq_self_iff.2 fun c hc => by simpa using h c hc

/-- `cutAt` returns a prefix of its input. -/
theorem cutAt_isPre {sep : Char} {l : List Char} : cutAt sep l <+: l :=
  List.takeWhile_prefix _

/-- `containsSub` is antitone along list prefixes. -/
theorem containsSub_mono {sub r l : List Char} (hpre : r <+: l)
    (h : containsSub sub l = false) : containsSub sub r = false := by
  cases hc : containsSub sub r
  · rfl
  · rw [containsSub_iff] at hc
    have : sub <:+: l := hc.trans hpre.isInfix
    rw [← containsSub_iff] at this
    rw [this] at h
    exact h

theorem ytCond_mono {r l : List Char} (hpre : r <+: l) (h : ytCond l = false) :
    ytCond r = false := by
  unfold ytCond at h ⊢
  rw [Bool.or_eq_false_iff] at h ⊢
  exact ⟨containsSub_mono hpre h.1, containsSub_mono hpre h.2⟩

/-- If the front part of a split is ampersand-free and question-mark-free and
whitespace-free, both conditional cuts of `sanitize_url` keep it intact. -/
theorem keeps_front {p x : List Char} {sep : Char}
    (hp : ∀ c ∈ p, (c != sep) = true) (b : Bool) :
    ∃ y, (if b then cutAt sep (p ++ x) else p ++ x) = p ++ y := by
  cases b
  · exact ⟨x, rfl⟩
  · refine ⟨cutAt sep x, ?_⟩
    simp only [if_true, reduceIte]
    unfold cutAt
    exact List.takeWhile_append_of_pos hp

/-- `sanitize_url` preserves classification: a URL matched by
`SUPPORTED_DOMAINS` still matches after normalization, because the matched
start contains no whitespace, ampersand or question mark and every
normalization step only strips characters after it. -/
theorem sanitize_preserves_match {u : List Char}
    (h : supportedDomainsMatch u = true) :
    supportedDomainsMatch (sanitize_url u) = true := by
  unfold supportedDomainsMatch at h ⊢
  rw [List.any_eq_true] at h ⊢
  obtain ⟨q, hqmem, hqpre⟩ := h
  rw [prefixOf_eq] at hqpre
  obtain ⟨p, t, rfl, hmap⟩ := map_pre_split (f := Char.toLower) hqpre
  obtain ⟨hqne, hqchars⟩ := urlStarts_chars q hqmem
  have hplower : ∀ c ∈ p, c.toLower ∈ q := by
    intro c hc
    rw [← hmap]
    exact List.mem_map_of_mem _ hc
  have hpamp : ∀ c ∈ p, (c != '&') = true := by
    intro c hc
    simp only [bne_iff_ne, ne_eq]
    intro hceq
    subst hceq
    have hin : ('&' : Char) ∈ q := by
      have := hplower '&' hc
      simpa using this
    exact (hqchars '&' hin).1 rfl
  have hpqm : ∀ c ∈ p, (c != '?') = true := by
    intro c hc
    simp only [bne_iff_ne, ne_eq]
    intro hceq
    subst hceq
    have hin : ('?' : Char) ∈ q := by
      have := hplower '?' hc
      simpa using this
    exact (hqchars '?' hin).2.1 rfl
  have hpws : ∀ c ∈ p, c.isWhitespace = false := by
    intro c hc
    cases hw : c.isWhitespace
    · rfl
    · exfalso
      have hin : c ∈ q := by
        rw [← toLower_of_ws hw]
        exact hplower c hc
      have hws := (hqchars c hin).2.2
      rw [hw] at hws
      exact Bool.noConfusion hws
  have hpne : p ≠ [] := by
    intro hp
    rw [hp] at hmap
    exact hqne hmap.symm
  obtain ⟨c₀, p', rfl⟩ := List.exists_cons_of_ne_nil hpne
  have hstrip : pyStrip ((c₀ :: p') ++ t) = (c₀ :: p') ++ rstripL t := by
    unfold pyStrip lstripL
    rw [List.cons_append, List.dropWhile_cons, hpws c₀ (List.mem_cons_self _ _)]
    simp only [Bool.false_eq_true, if_false, reduceIte]
    rw [← List.cons_append]
    exact rstrip_append hpws
  have hdef : sanitize_url ((c₀ :: p') ++ t) =
      (let c1 := pyStrip ((c₀ :: p') ++ t)
       let c2 := if ytCond c1 then cutAt '&' c1 else c1
       if igCond c2 then cutAt '?' c2 else c2) := rfl
  rw [hdef]
  simp only [hstrip]
  obtain ⟨x₁, hx₁⟩ := keeps_front (x := rstripL t) hpamp
    (ytCond ((c₀ :: p') ++ rstripL t))
  rw [hx₁]
  obtain ⟨x₂, hx₂⟩ := keeps_front (x := x₁) hpqm (igCond ((c₀ :: p') ++ x₁))
  rw [hx₂]
  refine ⟨q, hqmem, ?_⟩
  rw [prefixOf_eq]
  unfold lowerL
  rw [List.map_append, ← hmap]
  exact List.prefix_append _ _

/-- `sanitize_url` is idempotent on whitespace-free inputs. -/
theorem sanitize_idempotent {u : List Char} (h : ∀ c ∈ u, c.isWhitespace = false) :
    sanitize_url (sanitize_url u) = sanitize_url u := by
  have happ : ∀ v : List Char, sanitize_url v =
      (if igCond (if ytCond (pyStrip v) then cutAt '&' (pyStrip v) else pyStrip v) then
        cutAt '?' (if ytCond (pyStrip v) then cutAt '&' (pyStrip v) else pyStrip v)
       else (if ytCond (pyStrip v) then cutAt '&' (pyStrip v) else pyStrip v)) :=
    fun v => rfl
  have hstrip : pyStrip u = u := pyStrip_of_no_ws h
  rw [happ u, hstrip]
  by_cases hyu : ytCond u = true
  · rw [if_pos hyu]
    have hapre : cutAt '&' u <+: u := cutAt_isPre
    have hano : ∀ c ∈ cutAt '&' u, c ≠ '&' := cutAt_no_sep
    by_cases hia : igCond (cutAt '&' u) = true
    · rw [if_pos hia]
      set r := cutAt '?' (cutAt '&' u) with hrdef
      have hrpre : r <+: u := cutAt_isPre.trans hapre
      have hrws : ∀ c ∈ r, c.isWhitespace = false :=
        fun c hc => h c (hrpre.sublist.subset hc)
      have hramp : ∀ c ∈ r, c ≠ '&' :=
        fun c hc => hano c (cutAt_isPre.sublist.subset hc)
      have hrq : ∀ c ∈ r, c ≠ '?' := cutAt_no_sep
      rw [happ r, pyStrip_of_no_ws hrws]
      have hinner : (if ytCond r then cutAt '&' r else r) = r := by
        by_cases hyr : ytCond r = true
        · rw [if_pos hyr]
          exact cutAt_of_no_sep hramp
        · rw [if_neg hyr]
      rw [hinner]
      by_cases hir : igCond r = true
      · rw [if_pos hir]
        exact cutAt_of_no_sep hrq
      · rw [if_neg hir]
    · rw [if_neg hia]
      set r := cutAt '&' u with hrdef
      have hrws : ∀ c ∈ r, c.isWhitespace = false :=
        fun c hc => h c (hapre.sublist.subset hc)
      rw [happ r, pyStrip_of_no_ws hrws]
      have hinner : (if ytCond r then cutAt '&' r else r) = r := by
        by_cases hyr : ytCond r = true
        · rw [if_pos hyr]
          exact cutAt_of_no_sep hano
        · rw [if_neg hyr]
      rw [hinner, if_neg hia]
  · rw [if_neg hyu]
    have hyuf : ytCond u = false := by
      cases hx : ytCond u
      · rfl
      · exact absurd hx hyu
    by_cases hia : igCond u = true
    · rw [if_pos hia]
      set r := cutAt '?' u with hrdef
      have hrpre : r <+: u := cutAt_isPre
      have hrws : ∀ c ∈ r, c.isWhitespace = false :=
        fun c hc => h c (hrpre.sublist.subset hc)
      have hrq : ∀ c ∈ r, c ≠ '?' := cutAt_no_sep
      rw [happ r, pyStrip_of_no_ws hrws]
      have hyr : ytCond r = false := ytCond_mono hrpre hyuf
      have hinner : (if ytCond r then cutAt '&' r else r) = r := by
        rw [if_neg (by simp [hyr])]
      rw [hinner]
      by_cases hir : igCond r = true
      · rw [if_pos hir]
        exact cutAt_of_no_sep hrq
      · rw [if_neg hir]
    · rw [if_neg hia, happ u, hstrip, if_neg hyu, if_neg hia]

/-- Behaviour of one throttle step: a dropped event leaves the state
unchanged; a rendered event updates the timestamp, is at least one interval
after the previous render, and comes from a usable downloading event; and
the step does not depend on whether the edit succeeds. -/
theorem progress_cb_step_spec (e : Bool) (st : ThrottleState) (now : ℚ)
    (d : ProgressData) :
    (∀ st2, progress_cb_step e st now d = (st2, false) → st2 = st) ∧
    (∀ st2, progress_cb_step e st now d = (st2, true) →
      st2 = ⟨now⟩ ∧ st.lastTs + 3 / 2 ≤ now ∧ d.status = "downloading" ∧
      pyTruthy (pyOrNat d.total_bytes d.total_bytes_estimate) = true) ∧
    progress_cb_step e st now d = progress_cb_step true st now d := by
  unfold progress_cb_step throttled_edit editAttempt
  by_cases h1 : (d.status != "downloading") = true
  · simp only [h1, if_true, reduceIte]
    refine ⟨fun st2 h => ?_, fun st2 h => ?_, trivial⟩
    · injection h with ha hb
      exact ha.symm
    · injection h with ha hb
      exact Bool.noConfusion hb
  · have h1' : d.status = "downloading" := by
      simpa using h1
    simp only [h1, Bool.false_eq_true, if_false, reduceIte]
    by_cases h2 : pyTruthy (pyOrNat d.total_bytes d.total_bytes_estimate) = false
    · simp only [h2, if_true, reduceIte]
      refine ⟨fun st2 h => ?_, fun st2 h => ?_, trivial⟩
      · injection h with ha hb
        exact ha.symm
      · injection h with ha hb
        exact Bool.noConfusion hb
    · have h2' : pyTruthy (pyOrNat d.total_bytes d.total_bytes_estimate) = true := by
        cases hx : pyTruthy (pyOrNat d.total_bytes d.total_bytes_estimate)
        · exact absurd hx h2
        · rfl
      simp only [h2, Bool.true_eq_false, if_false, reduceIte]
      by_cases h3 : now - st.lastTs < 3 / 2
      · simp only [h3, if_true, reduceIte]
        refine ⟨fun st2 h => ?_, fun st2 h => ?_, trivial⟩
        · injection h with ha hb
          exact ha.symm
        · injection h with ha hb
          exact Bool.noConfusion hb
      · simp only [h3, if_false, reduceIte]
        have hgap : st.lastTs + 3 / 2 ≤ now := by
          have := not_lt.1 h3
          linarith
        cases e
        · simp only [Bool.false_eq_true, if_false, reduceIte]
          refine ⟨fun st2 h => ?_, fun st2 h => ?_, trivial⟩
          · injection h with ha hb
            exact Bool.noConfusion hb
          · injection h with ha hb
            refine ⟨ha.symm, hgap, h1', ?_⟩
            trivial
        · simp only [if_true, reduceIte]
          refine ⟨fun st2 h => ?_, fun st2 h => ?_, trivial⟩
          · injection h with ha hb
            exact Bool.noConfusion hb
          · injection h with ha hb
            refine ⟨ha.symm, hgap, h1', ?_⟩
            trivial

/-- Unfolding equation for `runProgress` on a cons cell. -/
theorem runProgress_cons (editOk : ℚ → Bool) (st : ThrottleState) (t : ℚ)
    (d : ProgressData) (rest : List (ℚ × ProgressData)) :
    runProgress editOk st ((t, d) :: rest) =
      match progress_cb_step (editOk t) st t d with
      | (st2, true) => t :: runProgress editOk st2 rest
      | (st2, false) => runProgress editOk st2 rest := rfl

/-- Invariant of the throttle run: rendered updates are spaced at least one
interval apart, the first one is at least one interval after the state's
timestamp, each comes from a usable downloading event, and the run does not
depend on edit failures. -/
theorem runProgress_spec (editOk : ℚ → Bool) :
    ∀ (events : List (ℚ × ProgressData)) (st : ThrottleState),
      List.Chain' (fun a b : ℚ => a + 3 / 2 ≤ b) (runProgress editOk st events) ∧
      (∀ u, (runProgress editOk st events).head? = some u → st.lastTs + 3 / 2 ≤ u) ∧
      (∀ u ∈ runProgress editOk st events, ∃ d, (u, d) ∈ events ∧
        d.status = "downloading" ∧
        pyTruthy (pyOrNat d.total_bytes d.total_bytes_estimate) = true) ∧
      runProgress editOk st events = runProgress (fun _ => true) st events := by
  intro events
  induction events with
  | nil =>
      intro st
      refine ⟨List.chain'_nil, ?_, ?_, rfl⟩
      · intro u hu; cases hu
      · intro u hu; cases hu
  | cons ed rest ih =>
      intro st
      obtain ⟨t, d⟩ := ed
      rcases hstep : progress_cb_step (editOk t) st t d with ⟨st2, rendered⟩
      have hstep' : progress_cb_step true st t d = (st2, rendered) := by
        rw [← (progress_cb_step_spec (editOk t) st t d).2.2]
        exact hstep
      cases rendered
      · -- event dropped: state unchanged
        have hst : st2 = st := (progress_cb_step_spec _ _ _ _).1 st2 hstep
        subst hst
        obtain ⟨ch, hd0, mem0, ind0⟩ := ih st2
        have hl : runProgress editOk st2 ((t, d) :: rest) = runProgress editOk st2 rest := by
          rw [runProgress_cons, hstep]
        have hr : runProgress (fun _ => true) st2 ((t, d) :: rest) =
            runProgress (fun _ => true) st2 rest := by
          rw [runProgress_cons, hstep']
        rw [hl, hr]
        refine ⟨ch, hd0, ?_, ind0⟩
        intro u hu
        obtain ⟨dd, hdd, hs, ht'⟩ := mem0 u hu
        exact ⟨dd, List.mem_cons_of_mem _ hdd, hs, ht'⟩
      · -- event rendered
        obtain ⟨hst2, hgap, hstat, htruth⟩ := (progress_cb_step_spec _ _ _ _).2.1 st2 hstep
        subst hst2
        obtain ⟨ch, hd0, mem0, ind0⟩ := ih ⟨t⟩
        have hl : runProgress editOk st ((t, d) :: rest) =
            t :: runProgress editOk ⟨t⟩ rest := by
          rw [runProgress_cons, hstep]
        have hr : runProgress (fun _ => true) st ((t, d) :: rest) =
            t :: runProgress (fun _ => true) ⟨t⟩ rest := by
          rw [runProgress_cons, hstep']
        rw [hl, hr]
        refine ⟨?_, ?_, ?_, by rw [ind0]⟩
        · refine List.chain'_cons'.2 ⟨fun y hy => ?_, ch⟩
          exact hd0 y hy
        · intro u hu
          simp only [List.head?_cons, Option.some.injEq] at hu
          rw [← hu]
          exact hgap
        · intro u hu
          rcases List.mem_cons.1 hu with hu | hu
          · exact ⟨d, by rw [hu]; exact List.mem_cons_self _ _, hstat, htruth⟩
          · obtain ⟨dd, hdd, hs, ht'⟩ := mem0 u hu
            exact ⟨dd, List.mem_cons_of_mem _ hdd, hs, ht'⟩

/-! ## Claims -/

/-- If the `SUPPORTED_DOMAINS` regex matches, the URL's host is on the
allow-list. -/
theorem match_imp_hostAllowed {url : List Char}
    (h : supportedDomainsMatch url = true) : hostOnAllowList url = true := by
  unfold supportedDomainsMatch at h
  rw [List.any_eq_true] at h
  obtain ⟨q, hq, hpre⟩ := h
  rw [prefixOf_eq] at hpre
  obtain ⟨t, ht⟩ := hpre
  simp only [urlStarts, List.mem_flatMap, List.mem_map] at hq
  obtain ⟨s, hs, w, hw, d, hd, rfl⟩ := hq
  unfold hostOnAllowList hostOf
  rw [← ht]
  fin_cases hs <;> fin_cases hw <;> fin_cases hd <;>
    simp [List.isPrefixOf, List.takeWhile_cons, allowedHosts, urlSubdomains, urlDomains,
      List.contains, List.elem_eq_mem]

/-- Claim C8: for every quality label outside the fixed set
{360p, 480p, 720p, 1080p, best, mp3}, the quality resolver yields the
"best" selector (and is total, hence never raises); only the mp3 label
requests audio-extraction post-processing with codec mp3, and every other
label requests merged mp4 container output. -/
theorem c8_quality_fallback (q tmp : String) (ua ck : Option String) :
    (q ∉ ["360p", "480p", "720p", "1080p", "best", "mp3"] →
      (_build_opts q tmp ua ck).format = bestSelector) ∧
    ((_build_opts q tmp ua ck).postprocessors =
      if q = "mp3" then [⟨"FFmpegExtractAudio", "mp3", "192"⟩] else []) ∧
    ((_build_opts q tmp ua ck).merge_output_format =
      if q = "mp3" then none else some "mp4") := by
  refine ⟨fun h => ?_, ?_, ?_⟩
  · simp only [List.mem_cons, List.not_mem_nil, or_false, not_or] at h
    obtain ⟨h1, h2, h3, h4, h5, h6⟩ := h
    have e1 : (q == "360p") = false := beq_eq_false_iff_ne.2 h1
    have e2 : (q == "480p") = false := beq_eq_false_iff_ne.2 h2
    have e3 : (q == "720p") = false := beq_eq_false_iff_ne.2 h3
    have e4 : (q == "1080p") = false := beq_eq_false_iff_ne.2 h4
    have e5 : (q == "best") = false := beq_eq_false_iff_ne.2 h5
    have e6 : (q == "mp3") = false := beq_eq_false_iff_ne.2 h6
    simp [_build_opts, qualityMapGet, QUALITY_MAP, List.lookup, e1, e2, e3, e4, e5, e6]
  · by_cases hq : q = "mp3" <;> simp [_build_opts, hq]
  · by_cases hq : q = "mp3" <;> simp [_build_opts, hq]

/-- Witness for C8 at the unrecognized label "4k". -/
theorem c8_quality_fallback_witness :
    ("4k" ∉ ["360p", "480p", "720p", "1080p", "best", "mp3"]) ∧
    (_build_opts "4k" "tmp" none none).format = bestSelector :=
  ⟨by decide, (c8_quality_fallback "4k" "tmp" none none).1 (by decide)⟩

/-- Counterexample to claim C3: on a typed failure (`FileTooLargeError`)
whose user-facing edit raises, `handle_download_callback` propagates the
exception before reaching `safe_remove` (no `try/finally` in bot.py lines
243-260), and the temp directory is left behind. -/
theorem c3_counterexample :
    pathExists
      (handle_download_cleanup ⟨["tmp/dl_7_5"], false⟩ "tmp/dl_7_5" 100
        FetchOutcome.tooLarge true false).1 "tmp/dl_7_5" = true ∧
    (handle_download_cleanup ⟨["tmp/dl_7_5"], false⟩ "tmp/dl_7_5" 100
      FetchOutcome.tooLarge true false).2 = true := by
  decide

/-- Claim C3 (amended): `handle_download_callback` removes the per-request
temp directory on every exit path on which the user-facing message edit
does not raise; on the success outcome it removes it unconditionally —
even when sending the file or the subsequent edit fails — because that
branch runs under `try/finally`; and `safe_remove` is a total function (it
cannot raise: its type is `FS → String → FS`) that leaves the filesystem
unchanged when the path is absent.  A typed or unexpected failure whose
edit raises skips the cleanup (see the counterexample). -/
theorem c3_amended_cleanup :
    (∀ (fs : FS) (tmpDir : String) (maxB : Nat) (outcome : FetchOutcome)
        (sendFails : Bool),
      fs.removeFails = false →
      pathExists (handle_download_cleanup fs tmpDir maxB outcome false sendFails).1
        tmpDir = false) ∧
    (∀ (fs : FS) (tmpDir : String) (maxB : Nat) (r : DownloadResult)
        (editFails sendFails : Bool),
      fs.removeFails = false →
      pathExists
        (handle_download_cleanup fs tmpDir maxB (FetchOutcome.success r)
          editFails sendFails).1 tmpDir = false) ∧
    (∀ (fs : FS) (p : String), pathExists fs p = false → safe_remove fs p = fs) := by
  refine ⟨?_, ?_, ?_⟩
  · intro fs tmpDir maxB outcome sendFails h
    cases outcome with
    | success r =>
        unfold handle_download_cleanup
        by_cases hs : r.size > maxB
        · simp only [hs, if_true, Bool.false_eq_true, if_false, reduceIte]
          exact (safe_remove_removes _ _ (safe_remove_removes fs tmpDir h).2).1
        · simp only [hs, if_false, reduceIte]
          exact (safe_remove_removes fs tmpDir h).1
    | unsupported => exact (safe_remove_removes fs tmpDir h).1
    | tooLarge => exact (safe_remove_removes fs tmpDir h).1
    | failed msg => exact (safe_remove_removes fs tmpDir h).1
    | unexpected => exact (safe_remove_removes fs tmpDir h).1
  · intro fs tmpDir maxB r editFails sendFails h
    unfold handle_download_cleanup
    by_cases hs : r.size > maxB
    · simp only [hs, if_true, reduceIte]
      cases editFails
      · simp only [Bool.false_eq_true, if_false, reduceIte]
        exact (safe_remove_removes _ _ (safe_remove_removes fs tmpDir h).2).1
      · simp only [if_true, reduceIte]
        exact (safe_remove_removes fs tmpDir h).1
    · simp only [hs, if_false, reduceIte]
      exact (safe_remove_removes fs tmpDir h).1
  · intro fs p h
    unfold safe_remove
    simp [h]

/-- Witness for the amended C3: a typed failure with a working edit removes
the directory; an oversized success with a failing edit still removes it
through the `finally`; removing an absent path is a no-op. -/
theorem c3_amended_cleanup_witness :
    pathExists
      (handle_download_cleanup ⟨["tmp/dl_7_5", "other"], false⟩ "tmp/dl_7_5" 100
        FetchOutcome.tooLarge false false).1 "tmp/dl_7_5" = false ∧
    pathExists
      (handle_download_cleanup ⟨["tmp/dl_7_5", "other"], false⟩ "tmp/dl_7_5" 100
        (FetchOutcome.success ⟨"tmp/dl_7_5/video.mp4", "Sample", "mp4", 200⟩)
        true true).1 "tmp/dl_7_5" = false ∧
    safe_remove ⟨["other"], false⟩ "tmp/dl_7_5" = ⟨["other"], false⟩ :=
  ⟨c3_amended_cleanup.1 ⟨["tmp/dl_7_5", "other"], false⟩ "tmp/dl_7_5" 100
      FetchOutcome.tooLarge false rfl,
   c3_amended_cleanup.2.1 ⟨["tmp/dl_7_5", "other"], false⟩ "tmp/dl_7_5" 100
      ⟨"tmp/dl_7_5/video.mp4", "Sample", "mp4", 200⟩ true true rfl,
   c3_amended_cleanup.2.2 ⟨["other"], false⟩ "tmp/dl_7_5" (by decide)⟩

/-- Claim C4: for every URL whose host is not on the allow-list, the
classifier rejects it, and `download_video` raises `UnsupportedURLError`
immediately: no destination directory is created, no options are built, and
the external fetch library is neither constructed nor invoked. -/
theorem c4_unsupported_rejected_early (url : List Char) (q tmp : String)
    (maxB : Nat) (ua ck : Option String) (env : FetchEnv)
    (h : hostOnAllowList url = false) :
    supportedDomainsMatch url = false ∧
    download_video url q tmp maxB ua ck env =
      (Except.error DlError.unsupportedURL,
       ⟨false, false, false, false, false, false⟩) := by
  have hm : supportedDomainsMatch url = false := by
    cases hc : supportedDomainsMatch url
    · rfl
    · rw [match_imp_hostAllowed hc] at h
      exact absurd h (by simp)
  refine ⟨hm, ?_⟩
  unfold download_video
  rw [hm]
  rfl

/-- Witness for C4 at the unsupported URL `https://example.com/video`. -/
theorem c4_unsupported_rejected_early_witness :
    hostOnAllowList "https://example.com/video".data = false ∧
    supportedDomainsMatch "https://example.com/video".data = false ∧
    download_video "https://example.com/video".data "360p" "tmp" 1024 none none
      ⟨Except.error "net", [], Except.error "net", fun _ => 0, ""⟩ =
      (Except.error DlError.unsupportedURL,
       ⟨false, false, false, false, false, false⟩) :=
  ⟨by decide,
   c4_unsupported_rejected_early "https://example.com/video".data "360p" "tmp" 1024
     none none ⟨Except.error "net", [], Except.error "net", fun _ => 0, ""⟩ (by decide)⟩

/-- Claim C1: a returned `DownloadResult` never exceeds the ceiling; and
whenever the transfer phase runs to completion and the realized size
exceeds the ceiling, `download_video` raises `FileTooLargeError` instead of
returning, even though a file was produced. -/
theorem c1_ceiling_enforced (url : List Char) (q tmp : String) (maxB : Nat)
    (ua ck : Option String) (env : FetchEnv) :
    (∀ r, (download_video url q tmp maxB ua ck env).1 = Except.ok r → r.size ≤ maxB) ∧
    (∀ info info2 p t e s,
      supportedDomainsMatch url = true →
      env.metaResult = Except.ok info →
      estimateAborts maxB info = false →
      env.progressEvents.any (hookAborts maxB) = false →
      env.transferResult = Except.ok info2 →
      extractResultFields env info2 = some (p, t, e, s) →
      s > maxB →
      (download_video url q tmp maxB ua ck env).1 = Except.error DlError.fileTooLarge ∧
      (download_video url q tmp maxB ua ck env).2.fileCreated = true) := by
  constructor
  · intro r hr
    unfold download_video at hr
    split at hr
    · simp at hr
    · rcases hE : env.metaResult with msg | info
      · rw [hE] at hr; simp at hr
      · rw [hE] at hr
        simp only at hr
        split at hr
        · simp at hr
        · split at hr
          · simp at hr
          · rcases hT : env.transferResult with msg | info2
            · rw [hT] at hr; simp at hr
            · rw [hT] at hr
              simp only at hr
              rcases hX : extractResultFields env info2 with _ | ⟨p, t, e, s⟩
              · rw [hX] at hr; simp at hr
              · rw [hX] at hr
                simp only at hr
                split at hr
                · simp at hr
                · rename_i hsize
                  simp only [Except.ok.injEq] at hr
                  rw [← hr]
                  show s ≤ maxB
                  omega
  · intro info info2 p t e s hm hmeta hest hhook htr hex hs
    unfold download_video
    rw [hm]
    simp only [Bool.true_eq_false, if_false, reduceIte, hmeta, hest, hhook, htr, hex]
    simp [hs]

/-- Witness for C1: a completed transfer whose realized size 5000 exceeds the
1000-byte ceiling yields `FileTooLargeError` with the file produced. -/
theorem c1_ceiling_enforced_witness :
    (download_video "https://youtu.be/t".data "best" "tmp" 1000 none none
      ⟨Except.ok ⟨some "Sample", none, none, [], none⟩, [],
       Except.ok ⟨some "Sample", none, none, [],
         some [⟨"tmp/video.mp4", some 5000, some "Sample", some "mp4"⟩]⟩,
       fun _ => 5000, "tmp/video.mp4"⟩).1 = Except.error DlError.fileTooLarge ∧
    (download_video "https://youtu.be/t".data "best" "tmp" 1000 none none
      ⟨Except.ok ⟨some "Sample", none, none, [], none⟩, [],
       Except.ok ⟨some "Sample", none, none, [],
         some [⟨"tmp/video.mp4", some 5000, some "Sample", some "mp4"⟩]⟩,
       fun _ => 5000, "tmp/video.mp4"⟩).2.fileCreated = true :=
  (c1_ceiling_enforced "https://youtu.be/t".data "best" "tmp" 1000 none none
      ⟨Except.ok ⟨some "Sample", none, none, [], none⟩, [],
       Except.ok ⟨some "Sample", none, none, [],
         some [⟨"tmp/video.mp4", some 5000, some "Sample", some "mp4"⟩]⟩,
       fun _ => 5000, "tmp/video.mp4"⟩).2
    ⟨some "Sample", none, none, [], none⟩
    ⟨some "Sample", none, none, [],
      some [⟨"tmp/video.mp4", some 5000, some "Sample", some "mp4"⟩]⟩
    "tmp/video.mp4" "Sample" "mp4" 5000
    (by decide) rfl rfl rfl rfl rfl (by decide)

/-- Claim C2: when the estimation phase yields an estimate exceeding the
ceiling, `download_video` raises `FileTooLargeError` before the transfer
phase: the download-mode call is never made and no output file is created. -/
theorem c2_estimate_aborts_before_transfer (url : List Char) (q tmp : String)
    (maxB : Nat) (ua ck : Option String) (env : FetchEnv) (info : YdlInfo) (n : Nat)
    (hm : supportedDomainsMatch url = true)
    (hmeta : env.metaResult = Except.ok info)
    (hest : _estimate_size info = some n)
    (hover : n > maxB) :
    (download_video url q tmp maxB ua ck env).1 = Except.error DlError.fileTooLarge ∧
    (download_video url q tmp maxB ua ck env).2.transferCalled = false ∧
    (download_video url q tmp maxB ua ck env).2.fileCreated = false := by
  have habort : estimateAborts maxB info = true := by
    unfold estimateAborts
    rw [hest]
    simp only [pyTruthy, Option.getD_some, Bool.and_eq_true, bne_iff_ne, ne_eq,
      decide_eq_true_eq]
    exact ⟨by omega, hover⟩
  unfold download_video
  rw [hm]
  simp [hmeta, habort]

/-- Witness for C2: a 10-megabyte estimate against a 1024-byte ceiling. -/
theorem c2_estimate_aborts_before_transfer_witness :
    (download_video "https://youtu.be/t".data "360p" "tmp" 1024 none none
      ⟨Except.ok ⟨some "Sample", some 10000000, none, [], none⟩, [],
       Except.error "never reached", fun _ => 0, ""⟩).1 =
      Except.error DlError.fileTooLarge ∧
    (download_video "https://youtu.be/t".data "360p" "tmp" 1024 none none
      ⟨Except.ok ⟨some "Sample", some 10000000, none, [], none⟩, [],
       Except.error "never reached", fun _ => 0, ""⟩).2.transferCalled = false ∧
    (download_video "https://youtu.be/t".data "360p" "tmp" 1024 none none
      ⟨Except.ok ⟨some "Sample", some 10000000, none, [], none⟩, [],
       Except.error "never reached", fun _ => 0, ""⟩).2.fileCreated = false :=
  c2_estimate_aborts_before_transfer "https://youtu.be/t".data "360p" "tmp" 1024
    none none
    ⟨Except.ok ⟨some "Sample", some 10000000, none, [], none⟩, [],
     Except.error "never reached", fun _ => 0, ""⟩
    ⟨some "Sample", some 10000000, none, [], none⟩ 10000000
    (by decide) rfl rfl (by decide)

/-- Claim C10: all three size checkpoints compare strictly, so an invocation
whose estimate, in-transfer totals and realized size are each exactly the
ceiling (or zero/absent) raises nothing and returns a file of exactly the
ceiling size. -/
theorem c10_exact_ceiling_accepted (url : List Char) (q tmp : String)
    (maxB : Nat) (ua ck : Option String) (env : FetchEnv)
    (info info2 : YdlInfo) (p t e : String)
    (hm : supportedDomainsMatch url = true)
    (hmeta : env.metaResult = Except.ok info)
    (hest : _estimate_size info = none ∨ _estimate_size info = some 0 ∨
      _estimate_size info = some maxB)
    (hev : ∀ d ∈ env.progressEvents,
      pyOrNat d.total_bytes d.total_bytes_estimate = none ∨
      pyOrNat d.total_bytes d.total_bytes_estimate = some 0 ∨
      pyOrNat d.total_bytes d.total_bytes_estimate = some maxB)
    (htr : env.transferResult = Except.ok info2)
    (hex : extractResultFields env info2 = some (p, t, e, maxB)) :
    (download_video url q tmp maxB ua ck env).1 = Except.ok ⟨p, t, e, maxB⟩ := by
  have habort : estimateAborts maxB info = false := by
    unfold estimateAborts
    rcases hest with h | h | h <;> rw [h] <;> simp [pyTruthy]
  have hhook : env.progressEvents.any (hookAborts maxB) = false := by
    rw [List.any_eq_false]
    intro d hd
    rcases hev d hd with h | h | h <;> simp [hookAborts, h, pyTruthy]
  unfold download_video
  rw [hm]
  simp [hmeta, habort, hhook, htr, hex]

/-- Witness for C10: estimate, one in-transfer total, and realized size all
exactly 2048 against a 2048-byte ceiling; the download succeeds. -/
theorem c10_exact_ceiling_accepted_witness :
    (download_video "https://youtu.be/t".data "best" "tmp" 2048 none none
      ⟨Except.ok ⟨some "Sample", some 2048, none, [], none⟩,
       [⟨"downloading", some 2048, none, some 100⟩],
       Except.ok ⟨some "Sample", none, none, [],
         some [⟨"tmp/video.mp4", some 2048, some "Sample", some "mp4"⟩]⟩,
       fun _ => 2048, "tmp/video.mp4"⟩).1 =
      Except.ok ⟨"tmp/video.mp4", "Sample", "mp4", 2048⟩ :=
  c10_exact_ceiling_accepted "https://youtu.be/t".data "best" "tmp" 2048 none none
    ⟨Except.ok ⟨some "Sample", some 2048, none, [], none⟩,
     [⟨"downloading", some 2048, none, some 100⟩],
     Except.ok ⟨some "Sample", none, none, [],
       some [⟨"tmp/video.mp4", some 2048, some "Sample", some "mp4"⟩]⟩,
     fun _ => 2048, "tmp/video.mp4"⟩
    ⟨some "Sample", some 2048, none, [], none⟩
    ⟨some "Sample", none, none, [],
      some [⟨"tmp/video.mp4", some 2048, some "Sample", some "mp4"⟩]⟩
    "tmp/video.mp4" "Sample" "mp4"
    (by decide) rfl (Or.inr (Or.inr rfl))
    (by intro d hd; simp at hd; rw [hd]; right; right; rfl)
    rfl rfl

/-- Claim C5: over any raw progress-event stream, rendered updates are at
least one 1.5-unit interval apart (events arriving earlier are dropped),
every rendered update stems from a downloading event with a usable total
(so an event lacking a usable total produces no rendered update), and the
run is unchanged when every edit attempt fails — rendering failures are
swallowed and the throttle (a total function) never raises. -/
theorem c5_throttle_behaviour (editOk : ℚ → Bool)
    (events : List (ℚ × ProgressData)) :
    List.Chain' (fun a b : ℚ => a + 3 / 2 ≤ b) (progressTrace editOk events) ∧
    (∀ u ∈ progressTrace editOk events, ∃ d, (u, d) ∈ events ∧
      d.status = "downloading" ∧
      pyTruthy (pyOrNat d.total_bytes d.total_bytes_estimate) = true) ∧
    progressTrace editOk events = progressTrace (fun _ => true) events := by
  obtain ⟨ch, _, mem, ind⟩ := runProgress_spec editOk events ⟨0⟩
  exact ⟨ch, mem, ind⟩

/-- Witness for C5 on a concrete burst of events (with every edit failing):
the throttle output exists, respects the interval, and matches the
all-edits-succeed run. -/
theorem c5_throttle_behaviour_witness :
    List.Chain' (fun a b : ℚ => a + 3 / 2 ≤ b)
      (progressTrace (fun _ => false)
        [((2 : ℚ), ⟨"downloading", some 100, none, some 10⟩),
         ((5 / 2 : ℚ), ⟨"downloading", some 100, none, some 20⟩),
         ((4 : ℚ), ⟨"downloading", some 100, none, some 50⟩)]) ∧
    (∀ u ∈ progressTrace (fun _ => false)
        [((2 : ℚ), ⟨"downloading", some 100, none, some 10⟩),
         ((5 / 2 : ℚ), ⟨"downloading", some 100, none, some 20⟩),
         ((4 : ℚ), ⟨"downloading", some 100, none, some 50⟩)],
      ∃ d : ProgressData, (u, d) ∈
        [((2 : ℚ), ⟨"downloading", some 100, none, some 10⟩),
         ((5 / 2 : ℚ), ⟨"downloading", some 100, none, some 20⟩),
         ((4 : ℚ), ⟨"downloading", some 100, none, some 50⟩)] ∧
        d.status = "downloading" ∧
        pyTruthy (pyOrNat d.total_bytes d.total_bytes_estimate) = true) ∧
    progressTrace (fun _ => false)
      [((2 : ℚ), ⟨"downloading", some 100, none, some 10⟩),
       ((5 / 2 : ℚ), ⟨"downloading", some 100, none, some 20⟩),
       ((4 : ℚ), ⟨"downloading", some 100, none, some 50⟩)] =
    progressTrace (fun _ => true)
      [((2 : ℚ), ⟨"downloading", some 100, none, some 10⟩),
       ((5 / 2 : ℚ), ⟨"downloading", some 100, none, some 20⟩),
       ((4 : ℚ), ⟨"downloading", some 100, none, some 50⟩)] :=
  c5_throttle_behaviour (fun _ => false)
    [((2 : ℚ), ⟨"downloading", some 100, none, some 10⟩),
     ((5 / 2 : ℚ), ⟨"downloading", some 100, none, some 20⟩),
     ((4 : ℚ), ⟨"downloading", some 100, none, some 50⟩)]

/-- Counterexample to claim C6: two distinct requests (same user, same
integer second, different chosen quality) receive the same temp-directory
name, so the directories of distinct concurrent requests are not always
distinct. -/
theorem c6_counterexample :
    (⟨7, 1700000000, "u1", "360p"⟩ : DlRequest) ≠ ⟨7, 1700000000, "u1", "720p"⟩ ∧
    request_tmp_dir ⟨7, 1700000000, "u1", "360p"⟩ =
      request_tmp_dir ⟨7, 1700000000, "u1", "720p"⟩ :=
  ⟨by decide, rfl⟩

/-- Claim C6 (amended): the temp-directory names of two requests coincide
exactly when both the requesting user's identity and the integer second of
creation coincide; in particular requests differing in user or in second
get distinct directories. -/
theorem c6_amended_tmp_dir_uniqueness (r₁ r₂ : DlRequest) :
    request_tmp_dir r₁ = request_tmp_dir r₂ ↔
      r₁.userId = r₂.userId ∧ r₁.unixTime = r₂.unixTime := by
  constructor
  · intro h
    exact tmp_dir_name_injective h
  · intro ⟨h1, h2⟩
    unfold request_tmp_dir
    rw [h1, h2]

/-- Witness for the amended C6 at two concrete requests by different users in
the same second. -/
theorem c6_amended_tmp_dir_uniqueness_witness :
    request_tmp_dir ⟨1, 1700000000, "u1", "360p"⟩ =
        request_tmp_dir ⟨3, 1700000000, "u2", "720p"⟩ ↔
      (1 : Nat) = 3 ∧ (1700000000 : Nat) = 1700000000 :=
  c6_amended_tmp_dir_uniqueness ⟨1, 1700000000, "u1", "360p"⟩ ⟨3, 1700000000, "u2", "720p"⟩

/-- Counterexample to claim C7: a request that is classified as supported but
fails the prompt-time membership check shows the membership-gating display
without the quality-selection UI ever being presented, so the quality UI
does not precede every membership-gating display. -/
theorem c7_counterexample :
    ¬ precedes (request_trace true false false false) Ev.qualityUI Ev.gatePromptDisplay := by
  decide

/-- Claim C7 (amended): for every request, the quality-selection UI precedes
the callback-phase membership gate (check and display), and that gate
precedes dispatch of the fetch to the worker context; only the prompt-time
gate may fire without a preceding quality UI. -/
theorem c7_amended_ordering (classified member1 selected member2 : Bool) :
    precedes (request_trace classified member1 selected member2)
      Ev.qualityUI Ev.gateCallbackCheck ∧
    precedes (request_trace classified member1 selected member2)
      Ev.qualityUI Ev.gateCallbackDisplay ∧
    precedes (request_trace classified member1 selected member2)
      Ev.gateCallbackCheck Ev.dispatchFetch := by
  cases classified <;> cases member1 <;> cases selected <;> cases member2 <;> decide

/-- Witness for the amended C7 on a fully successful request. -/
theorem c7_amended_ordering_witness :
    precedes (request_trace true true true true) Ev.qualityUI Ev.gateCallbackCheck ∧
    precedes (request_trace true true true true) Ev.qualityUI Ev.gateCallbackDisplay ∧
    precedes (request_trace true true true true) Ev.gateCallbackCheck Ev.dispatchFetch :=
  c7_amended_ordering true true true true

/-- Counterexample to claim C9: `sanitize_url` is not idempotent on every
URL.  On `"youtube &x"` the ampersand cut exposes a trailing space, which
only the second application strips, so the two applications differ. -/
theorem c9_counterexample :
    sanitize_url (sanitize_url "youtube &x".data) ≠ sanitize_url "youtube &x".data := by
  decide

/-- Claim C9 (amended): normalization preserves classification for every
supported URL (with tracking parameters or not), and `sanitize_url` is
idempotent on every whitespace-free URL; idempotence can fail only when a
cut exposes trailing whitespace. -/
theorem c9_amended_normalize (u : List Char) :
    (supportedDomainsMatch u = true → supportedDomainsMatch (sanitize_url u) = true) ∧
    ((∀ c ∈ u, c.isWhitespace = false) →
      sanitize_url (sanitize_url u) = sanitize_url u) :=
  ⟨fun h => sanitize_preserves_match h, fun h => sanitize_idempotent h⟩

/-- Witness for C9 on a YouTube URL with tracking parameters. -/
theorem c9_amended_normalize_witness :
    supportedDomainsMatch "https://www.youtube.com/watch?v=abc&t=10s".data = true ∧
    supportedDomainsMatch (sanitize_url "https://www.youtube.com/watch?v=abc&t=10s".data) = true ∧
    sanitize_url (sanitize_url "https://www.youtube.com/watch?v=abc&t=10s".data) =
      sanitize_url "https://www.youtube.com/watch?v=abc&t=10s".data :=
  ⟨by decide,
   (c9_amended_normalize "https://www.youtube.com/watch?v=abc&t=10s".data).1 (by decide),
   (c9_amended_normalize "https://www.youtube.com/watch?v=abc&t=10s".data).2 (by decide)⟩

end Mblog
